import Mathlib

/-!
Verification of the Agent Lifecycle & Status Synchronization Engine of the
opus-orchestra repository, as a shallow embedding in Lean 4.

Each definition transcribes one function of the TypeScript source:
  - `AgentStatusTracker` from packages/core/src/managers/AgentStatusTracker.ts
  - `GitService` from packages/core/src/services/GitService.ts
  - `AgentFactory` from packages/core/src/managers/AgentFactory.ts
  - `FileWatcher` from the FileWatcher module
  - `WorktreeManager` (source file absent: modelled from the spec and its tests)

JavaScript `Date` values are embedded as natural numbers (epoch milliseconds),
`Set<number>` as `Finset ℕ`, thrown exceptions as `Except`, and the engine's
timer runtime (`setInterval` / `setTimeout`) as explicit schedules and a
one-millisecond-step simulator.
-/

/-- Agent status enumeration (`AgentStatus`): `idle`, `working`,
`waiting-input`, `waiting-approval`. -/
inductive AgentStatus where
  | idle
  | working
  | waitingInput
  | waitingApproval
  deriving DecidableEq, Repr

/-- Diff statistics (`DiffStats`): insertions, deletions, files changed. -/
structure DiffStats where
  insertions : ℕ
  deletions : ℕ
  filesChanged : ℕ
  deriving DecidableEq, Repr

/-- A TODO entry of an agent's task list. -/
structure TodoEntry where
  status : String
  content : String
  activeForm : String
  deriving DecidableEq, Repr

/-- Isolation runtime handle (`ContainerInfo`): the engine treats it as
opaque, so only an identifier is modelled. -/
structure ContainerInfo where
  runtimeId : String
  deriving DecidableEq, Repr

/-- In-memory `Agent` record (PersistedAgent fields plus runtime state).
`terminal` is embedded as whether a live terminal handle exists;
`lastInteractionTime` as epoch milliseconds. -/
structure Agent where
  id : ℕ
  name : String
  sessionId : String
  branch : String
  worktreePath : String
  repoPath : String
  taskFile : Option String
  terminal : Bool
  status : AgentStatus
  statusIcon : String
  pendingApproval : Option String
  lastInteractionTime : ℕ
  diffStats : DiffStats
  todos : List TodoEntry
  containerConfigName : String
  containerInfo : Option ContainerInfo
  deriving DecidableEq, Repr

/-- `ParsedStatus`: the result of parsing a hook-written signal file.
`fileTimestamp` is the signal file's modification time (epoch ms),
optional exactly as in types/hooks.ts (`fileTimestamp?: number`). -/
structure ParsedStatus where
  status : AgentStatus
  pendingApproval : Option String
  fileTimestamp : Option ℕ
  deriving DecidableEq, Repr

/-- Events emitted by the tracker into the event bus. -/
inductive TrackerEvent where
  | statusChanged (agentId : ℕ) (previousStatus : AgentStatus)
  | approvalPending (agentId : ℕ) (description : String)
  | diffStatsChanged (agentId : ℕ) (previousDiffStats : DiffStats)
  | todosChanged (agentId : ℕ)
  deriving DecidableEq, Repr

namespace AgentStatusTracker

/-- `AgentStatusTracker.checkHookStatus` (AgentStatusTracker.ts lines
105-130). The parsed signal-file result (`statusService.checkStatus`) is
passed in as a parameter; the function returns the updated agent and the
emitted events, in emission order. Transcription: when a parse result
exists, status and pendingApproval are assigned unconditionally; a
`agent:statusChanged` event fires when the status actually changed, and an
`approval:pending` event fires when an approval appeared where none was. -/
def checkHookStatus (parsedStatus : Option ParsedStatus) (agent : Agent) :
    Agent × List TrackerEvent :=
  match parsedStatus with
  | none => (agent, [])
  | some parsed =>
    let previousStatus := agent.status
    let hadApproval := agent.pendingApproval ≠ none
    let agent := { agent with
      status := parsed.status
      pendingApproval := parsed.pendingApproval }
    let statusEvents :=
      if previousStatus ≠ agent.status then
        [TrackerEvent.statusChanged agent.id previousStatus]
      else []
    let approvalEvents :=
      if ¬hadApproval ∧ agent.pendingApproval ≠ none then
        match agent.pendingApproval with
        | some d => [TrackerEvent.approvalPending agent.id d]
        | none => []
      else []
    (agent, statusEvents ++ approvalEvents)

end AgentStatusTracker

/-- Discriminated result type of types/result.ts (`Result<T>`), as produced
by `ok` / `err` in GitService.ts. -/
inductive GitResult (α : Type) where
  | ok (data : α)
  | err (message : String)
  deriving DecidableEq, Repr

namespace GitService

/-- `GitService.getDiffStats` (GitService.ts lines 169-176): delegates to
`getDiffStatsResult` and, for backward compatibility, converts any failure
into zero statistics instead of throwing. The outcome of
`getDiffStatsResult` is passed in as a parameter. -/
def getDiffStats (result : GitResult DiffStats) : DiffStats :=
  match result with
  | GitResult.ok s => s
  | GitResult.err _ => { insertions := 0, deletions := 0, filesChanged := 0 }

end GitService

namespace AgentStatusTracker

/-- `AgentStatusTracker.getDiffStatsAsync` (AgentStatusTracker.ts lines
153-171), with the two awaited git calls passed in as `Except` values so
that a thrown exception is an explicit `.error`. The surrounding
`try/catch` keeps the existing stats when either call throws; otherwise the
stats are replaced and `agent:diffStatsChanged` emitted only when one of
the three fields differs. -/
def getDiffStatsAsync (baseBranch : Except String String)
    (newStats : Except String DiffStats) (agent : Agent) :
    Agent × List TrackerEvent :=
  match baseBranch, newStats with
  | Except.ok _, Except.ok newDiffStats =>
    let previousDiffStats := agent.diffStats
    if previousDiffStats.insertions ≠ newDiffStats.insertions ∨
        previousDiffStats.deletions ≠ newDiffStats.deletions ∨
        previousDiffStats.filesChanged ≠ newDiffStats.filesChanged then
      ({ agent with diffStats := newDiffStats },
        [TrackerEvent.diffStatsChanged agent.id previousDiffStats])
    else
      (agent, [])
  | _, _ => (agent, [])

/-- The diff-stats reconciliation as actually composed with the shipped
`GitService`: `getBaseBranch` never throws (its internal catch returns
`HEAD~1`) and `getDiffStats` never throws (failures become zero stats), so
both awaited values reach `getDiffStatsAsync` as successful. -/
def getDiffStatsViaService (baseBranch : String)
    (diffResult : GitResult DiffStats) (agent : Agent) :
    Agent × List TrackerEvent :=
  getDiffStatsAsync (Except.ok baseBranch)
    (Except.ok (GitService.getDiffStats diffResult)) agent

end AgentStatusTracker

/-- A concrete agent record used to evaluate the tracker at specific
inputs. -/
def sampleAgent : Agent :=
  { id := 1
    name := "alpha"
    sessionId := "session-1"
    branch := "claude-alpha"
    worktreePath := "/repo/.worktrees/claude-alpha"
    repoPath := "/repo"
    taskFile := none
    terminal := true
    status := AgentStatus.working
    pendingApproval := none
    lastInteractionTime := 100
    statusIcon := "loading~spin"
    diffStats := { insertions := 0, deletions := 0, filesChanged := 0 }
    todos := []
    containerConfigName := "unisolated"
    containerInfo := none }

/-- A parsed signal-file result whose modification time (50) predates the
sample agent's last-interaction time (100): a stale write. -/
def staleParsed : ParsedStatus :=
  { status := AgentStatus.idle
    pendingApproval := none
    fileTimestamp := some 50 }

/-- C1: the claim states that a parsed signal-file result whose file
modification time is earlier than the agent's `lastInteractionTime` is
discarded by status reconciliation. The code disagrees:
`AgentStatusTracker.checkHookStatus` never consults `fileTimestamp`, so at
the concrete stale input (file mtime 50 < lastInteractionTime 100) it
overwrites the agent's status from `working` to `idle` and emits a
status-changed event — contradicting the spec's stale-write protection and
the repository's own StatusWatcher tests. -/
theorem checkHookStatus_applies_stale_update :
    staleParsed.fileTimestamp = some 50 ∧
    sampleAgent.lastInteractionTime = 100 ∧
    sampleAgent.status = AgentStatus.working ∧
    (AgentStatusTracker.checkHookStatus (some staleParsed) sampleAgent).1.status
      = AgentStatus.idle ∧
    (AgentStatusTracker.checkHookStatus (some staleParsed) sampleAgent).2
      = [TrackerEvent.statusChanged 1 AgentStatus.working] := by
  refine ⟨rfl, rfl, rfl, rfl, rfl⟩

/-- An agent that has accumulated non-zero diff statistics. -/
def agentWithDiff : Agent :=
  { sampleAgent with
    diffStats := { insertions := 5, deletions := 2, filesChanged := 1 } }

/-- C2: the claim states that when computing diff statistics fails, the
previously stored `diffStats` are retained and no diff-changed event is
emitted. In the shipped composition this is false: `GitService.getDiffStats`
converts a failure into zero statistics instead of throwing, so the
tracker's `try/catch` (whose comment says "Keep existing stats on error")
never sees the failure; at the concrete input (previous stats 5/2/1, git
diff fails) the stats are overwritten with zeros and
`agent:diffStatsChanged` is emitted. -/
theorem diffStats_failure_overwrites_with_zeros :
    agentWithDiff.diffStats = { insertions := 5, deletions := 2, filesChanged := 1 } ∧
    (AgentStatusTracker.getDiffStatsViaService "main"
        (GitResult.err "git diff timed out") agentWithDiff).1.diffStats
      = { insertions := 0, deletions := 0, filesChanged := 0 } ∧
    (AgentStatusTracker.getDiffStatsViaService "main"
        (GitResult.err "git diff timed out") agentWithDiff).2
      = [TrackerEvent.diffStatsChanged 1
          { insertions := 5, deletions := 2, filesChanged := 1 }] := by
  refine ⟨rfl, by decide, by decide⟩

/-! ## FileWatcher (hybrid watcher with mandatory backup poll) -/

/-- Character-list helper: does `hay` start with `needle`? -/
def listStartsWith : List Char → List Char → Bool
  | _, [] => true
  | [], _ :: _ => false
  | h :: t, nh :: nt => h = nh && listStartsWith t nt

/-- Character-list helper: does `needle` occur anywhere inside `hay`?
Embeds JavaScript `String.prototype.includes`. -/
def listContains : List Char → List Char → Bool
  | [], needle => needle.isEmpty
  | h :: t, needle => listStartsWith (h :: t) needle || listContains t needle

/-- JavaScript `hay.includes(needle)` over Lean strings. -/
def strIncludes (hay needle : String) : Bool :=
  listContains hay.data needle.data

/-- ASCII lower-casing of one character, embedding
`String.prototype.toLowerCase` for the ASCII range it is applied to. -/
def asciiLower (c : Char) : Char :=
  if 65 ≤ c.toNat ∧ c.toNat ≤ 90 then Char.ofNat (c.toNat + 32) else c

/-- JavaScript `s.toLowerCase()` over Lean strings (ASCII range). -/
def strToLower (s : String) : String :=
  ⟨s.data.map asciiLower⟩

/-- `isWsl` (FileWatcher module lines 100-118), with the environment passed
in explicitly: the process platform and the content of `/proc/version` when
that file exists (`none` when it does not or reading throws). The module
level cache is irrelevant to a single evaluation and is not modelled. -/
def isWsl (platform : String) (procVersion : Option String) : Bool :=
  if platform = "linux" then
    match procVersion with
    | some version =>
      strIncludes (strToLower version) "microsoft" ||
        strIncludes (strToLower version) "wsl"
    | none => false
  else false

/-- `FileWatcherOptions`: the optional fields resolved by the constructor. -/
structure FileWatcherOptions where
  paths : List String
  pollInterval : Option ℕ
  healthCheckInterval : Option ℕ
  usePollingOnly : Option Bool
  debounceMs : Option ℕ
  deriving DecidableEq, Repr

/-- `DEFAULT_POLL_INTERVAL` (5000 ms). -/
def DEFAULT_POLL_INTERVAL : ℕ := 5000

/-- `DEFAULT_HEALTH_CHECK_INTERVAL` (60000 ms). -/
def DEFAULT_HEALTH_CHECK_INTERVAL : ℕ := 60000

/-- `DEFAULT_DEBOUNCE_MS` (100 ms). -/
def DEFAULT_DEBOUNCE_MS : ℕ := 100

/-- The configuration a constructed `FileWatcher` instance holds. -/
structure FileWatcherConfig where
  paths : List String
  pollInterval : ℕ
  healthCheckInterval : ℕ
  usePollingOnly : Bool
  debounceMs : ℕ
  deriving DecidableEq, Repr

namespace FileWatcher

/-- The `FileWatcher` constructor (FileWatcher module lines 152-161):
each optional field falls back to its default via `??`. Note that
`usePollingOnly` defaults to plain `false`; the constructor never calls
`isWsl`/`detectWsl`. -/
def ofOptions (options : FileWatcherOptions) : FileWatcherConfig :=
  { paths := options.paths
    pollInterval := options.pollInterval.getD DEFAULT_POLL_INTERVAL
    healthCheckInterval :=
      options.healthCheckInterval.getD DEFAULT_HEALTH_CHECK_INTERVAL
    usePollingOnly := options.usePollingOnly.getD false
    debounceMs := options.debounceMs.getD DEFAULT_DEBOUNCE_MS }

/-- Which subsystems `FileWatcher.start` (lines 166-193) launches from the
stopped state: the chokidar native subscription unless `usePollingOnly`,
backup polling whenever `pollInterval > 0`, and the health check unless
`usePollingOnly`. -/
structure StartedSubsystems where
  running : Bool
  chokidarStarted : Bool
  backupPollingStarted : Bool
  healthCheckStarted : Bool
  deriving DecidableEq, Repr

/-- `FileWatcher.start` from the not-running state. -/
def start (config : FileWatcherConfig) : StartedSubsystems :=
  { running := true
    chokidarStarted := ¬config.usePollingOnly
    backupPollingStarted := decide (0 < config.pollInterval)
    healthCheckStarted := ¬config.usePollingOnly }

end FileWatcher

/-- Options with every optional field omitted, as a caller relying on the
documented WSL auto-detection would pass them. -/
def defaultedOptions : FileWatcherOptions :=
  { paths := ["/repo/.worktrees"]
    pollInterval := none
    healthCheckInterval := none
    usePollingOnly := none
    debounceMs := none }

/-- C3: the claim states that when WSL detection returns true the watcher
defaults to poll-only mode with no native subscription. The code disagrees:
`isWsl` returns true on a WSL kernel string, yet the constructor sets
`usePollingOnly` from the option alone with default `false` (never calling
`detectWsl`), so `start` still launches the chokidar native subscription —
contradicting the module's own header comment ("WSL Detection:
Automatically enables polling mode on WSL"). -/
theorem fileWatcher_ignores_wsl_detection :
    isWsl "linux"
      (some "Linux version 5.15.90.1-microsoft-standard-WSL2") = true ∧
    (FileWatcher.ofOptions defaultedOptions).usePollingOnly = false ∧
    (FileWatcher.start (FileWatcher.ofOptions defaultedOptions)).chokidarStarted
      = true := by
  refine ⟨by decide, rfl, rfl⟩

/-! ## FileWatcher backup polling: millisecond-step timer simulation

`startBackupPolling` (FileWatcher module lines 333-340) performs one
immediate `doPoll` and installs `setInterval(doPoll, pollInterval)`;
`doPoll` (lines 422-434) unconditionally emits one synthetic `poll` event.
The simulator below advances time one millisecond per step; each step also
carries whether a native (chokidar) event arrived in that millisecond,
which — as in `queueChokidarEvent` — only touches the health flag. -/

/-- Runtime state of a `FileWatcher`'s backup polling. `pollElapsed` is the
time since the interval timer last fired, `pollCount` the number of `poll`
events emitted so far. -/
structure FWSim where
  running : Bool
  pollElapsed : ℕ
  pollCount : ℕ
  healthy : Bool
  deriving DecidableEq, Repr

namespace FileWatcher

/-- State right after `start` on a fresh watcher: running, with the one
immediate `doPoll` of `startBackupPolling` already emitted when
`pollInterval > 0` (lines 181-185: backup polling starts only then). -/
def fwStart (pollInterval : ℕ) : FWSim :=
  { running := true
    pollElapsed := 0
    pollCount := if 0 < pollInterval then 1 else 0
    healthy := true }

/-- `stop` (lines 198-233): clears the interval timer and stops the
watcher; no further events are emitted. -/
def fwStop (s : FWSim) : FWSim :=
  { s with running := false }

/-- Advance the simulation by one millisecond. `native` tells whether a
chokidar event arrived during this millisecond; as in `queueChokidarEvent`
it only refreshes the health flag and never feeds the backup poll. The
interval timer fires once `pollInterval` milliseconds have elapsed since
its last firing, emitting one `poll` event. -/
def fwStep (pollInterval : ℕ) (native : Bool) (s : FWSim) : FWSim :=
  if s.running then
    if 0 < pollInterval then
      { running := true
        pollElapsed := if pollInterval ≤ s.pollElapsed + 1 then 0 else s.pollElapsed + 1
        pollCount := if pollInterval ≤ s.pollElapsed + 1 then s.pollCount + 1 else s.pollCount
        healthy := native || s.healthy }
    else
      { s with healthy := native || s.healthy }
  else s

/-- Run the simulation over a stream of milliseconds, each carrying the
native-event flag for that millisecond. -/
def fwRun (pollInterval : ℕ) (natives : List Bool) (s : FWSim) : FWSim :=
  natives.foldl (fun st n => fwStep pollInterval n st) s

theorem fwStep_running (p : ℕ) (n : Bool) (s : FWSim) (hs : s.running = true)
    (hp : 0 < p) : (fwStep p n s).running = true := by
  simp [fwStep, hs, hp]

theorem fwStep_pollElapsed (p : ℕ) (n : Bool) (s : FWSim)
    (hs : s.running = true) (hp : 0 < p) :
    (fwStep p n s).pollElapsed =
      if p ≤ s.pollElapsed + 1 then 0 else s.pollElapsed + 1 := by
  simp [fwStep, hs, hp]

theorem fwStep_pollCount (p : ℕ) (n : Bool) (s : FWSim)
    (hs : s.running = true) (hp : 0 < p) :
    (fwStep p n s).pollCount =
      if p ≤ s.pollElapsed + 1 then s.pollCount + 1 else s.pollCount := by
  simp [fwStep, hs, hp]

/-- While running with a positive poll interval, the poll counter advances
by exactly one firing per elapsed interval, independent of the content of
the native-event stream. -/
theorem fwRun_pollCount (p : ℕ) (hp : 0 < p) :
    ∀ (natives : List Bool) (s : FWSim), s.running = true → s.pollElapsed < p →
      (fwRun p natives s).pollCount = s.pollCount + (s.pollElapsed + natives.length) / p ∧
      (fwRun p natives s).pollElapsed = (s.pollElapsed + natives.length) % p ∧
      (fwRun p natives s).running = true := by
  intro natives
  induction natives with
  | nil =>
    intro s hs he
    refine ⟨?_, ?_, hs⟩
    · simp [fwRun, Nat.div_eq_of_lt he]
    · simp [fwRun, Nat.mod_eq_of_lt he]
  | cons n rest ih =>
    intro s hs he
    have hstep : fwRun p (n :: rest) s = fwRun p rest (fwStep p n s) := rfl
    have hr1 := fwStep_running p n s hs hp
    have he1 : (fwStep p n s).pollElapsed < p := by
      rw [fwStep_pollElapsed p n s hs hp]
      split
      · exact hp
      · omega
    obtain ⟨hc, hm, hr⟩ := ih (fwStep p n s) hr1 he1
    rw [hstep]
    by_cases hfire : p ≤ s.pollElapsed + 1
    · -- the interval timer fires on this millisecond
      have hpe : s.pollElapsed + 1 = p := le_antisymm he hfire
      refine ⟨?_, ?_, hr⟩
      · rw [hc, fwStep_pollCount p n s hs hp, fwStep_pollElapsed p n s hs hp]
        rw [if_pos hfire, if_pos hfire]
        have hlen : s.pollElapsed + (n :: rest).length = p + rest.length := by
          rw [List.length_cons]
          omega
        rw [hlen, Nat.add_div_left _ hp, Nat.zero_add]
        omega
      · rw [hm, fwStep_pollElapsed p n s hs hp, if_pos hfire]
        have hlen : s.pollElapsed + (n :: rest).length = p + rest.length := by
          rw [List.length_cons]
          omega
        rw [hlen, Nat.add_mod_left, Nat.zero_add]
    · -- no firing: the elapsed counter just advances
      refine ⟨?_, ?_, hr⟩
      · rw [hc, fwStep_pollCount p n s hs hp, fwStep_pollElapsed p n s hs hp]
        rw [if_neg hfire, if_neg hfire, List.length_cons]
        have : s.pollElapsed + 1 + rest.length = s.pollElapsed + (rest.length + 1) := by
          omega
        rw [this]
      · rw [hm, fwStep_pollElapsed p n s hs hp, if_neg hfire, List.length_cons]
        have : s.pollElapsed + 1 + rest.length = s.pollElapsed + (rest.length + 1) := by
          omega
        rw [this]

/-- After `stop` the simulation is frozen: steps change nothing. -/
theorem fwRun_stopped (p : ℕ) (natives : List Bool) (s : FWSim)
    (hs : s.running = false) : fwRun p natives s = s := by
  induction natives with
  | nil => rfl
  | cons n rest ih =>
    have hstep : fwStep p n s = s := by
      simp [fwStep, hs]
    show fwRun p rest (fwStep p n s) = s
    rw [hstep]
    exact ih

end FileWatcher

/-- C4: for every started watcher with a positive poll interval `p`, after
any stream of `t` milliseconds the backup poll has emitted exactly
`1 + t / p` synthetic poll events — one immediately at start and then one
per configured interval — no matter what the native subscription delivered
during those milliseconds; once `stop` is called no further events are
emitted; and a watcher constructed without an explicit interval polls every
`DEFAULT_POLL_INTERVAL = 5000` ms. -/
theorem fileWatcher_backup_poll_fires_each_interval (p : ℕ) (hp : 0 < p)
    (natives : List Bool) :
    (FileWatcher.fwRun p natives (FileWatcher.fwStart p)).pollCount
      = 1 + natives.length / p ∧
    (∀ s : FWSim,
      FileWatcher.fwRun p natives (FileWatcher.fwStop s) = FileWatcher.fwStop s) ∧
    (FileWatcher.ofOptions defaultedOptions).pollInterval = 5000 := by
  refine ⟨?_, ?_, rfl⟩
  · have h := FileWatcher.fwRun_pollCount p hp natives (FileWatcher.fwStart p)
      (by simp [FileWatcher.fwStart]) (by simp [FileWatcher.fwStart]; exact hp)
    have hc := h.1
    simpa [FileWatcher.fwStart, hp] using hc
  · intro s
    exact FileWatcher.fwRun_stopped p natives (FileWatcher.fwStop s) rfl

/-- Witness for C4 at a concrete input: poll interval 5000 ms, a 3 ms run
during which the native subscription stays silent. -/
theorem fileWatcher_backup_poll_witness :
    0 < 5000 ∧
    (FileWatcher.fwRun 5000 [false, false, false]
      (FileWatcher.fwStart 5000)).pollCount = 1 + 3 / 5000 := by
  have h := fileWatcher_backup_poll_fires_each_interval 5000 (by decide)
    [false, false, false]
  exact ⟨by decide, h.1⟩

/-! ## AgentStatusTracker polling lifecycle -/

/-- `PollingConfig` (AgentStatusTracker.ts lines 20-24): the three polling
periods in milliseconds. -/
structure PollingConfig where
  statusInterval : ℕ
  todoInterval : ℕ
  diffInterval : ℕ
  deriving DecidableEq, Repr

/-- `DEFAULT_POLLING_CONFIG` (AgentStatusTracker.ts lines 29-33). -/
def DEFAULT_POLLING_CONFIG : PollingConfig :=
  { statusInterval := 1000
    todoInterval := 2000
    diffInterval := 60000 }

/-- The three polling loops of the tracker. -/
inductive LoopKind where
  | status
  | todo
  | diff
  deriving DecidableEq, Repr

/-- What one call of `startPolling` (AgentStatusTracker.ts lines 252-301)
schedules, in source order: the poll closures it invokes synchronously
(`pollStatus()` / `pollTodos()` right after their `setInterval`), the
interval timers it installs, and the delayed one-shot timers
(`setTimeout(pollDiff, 1000)`). -/
structure TrackerSchedule where
  immediate : List LoopKind
  intervals : List (ℕ × LoopKind)
  timeouts : List (ℕ × LoopKind)
  deriving DecidableEq, Repr

namespace AgentStatusTracker

/-- Transcription of the scheduling part of `startPolling`, from the
not-yet-polling state. `hasTodoService` reflects the optional
`todoService` dependency guarding the TODO loop. -/
def startPollingSchedule (hasTodoService : Bool) (config : PollingConfig) :
    TrackerSchedule :=
  let statusPart : TrackerSchedule :=
    if 0 < config.statusInterval then
      { immediate := [LoopKind.status]
        intervals := [(config.statusInterval, LoopKind.status)]
        timeouts := [] }
    else { immediate := [], intervals := [], timeouts := [] }
  let todoPart : TrackerSchedule :=
    if 0 < config.todoInterval ∧ hasTodoService then
      { immediate := [LoopKind.todo]
        intervals := [(config.todoInterval, LoopKind.todo)]
        timeouts := [] }
    else { immediate := [], intervals := [], timeouts := [] }
  let diffPart : TrackerSchedule :=
    if 0 < config.diffInterval then
      { immediate := []
        intervals := [(config.diffInterval, LoopKind.diff)]
        timeouts := [(1000, LoopKind.diff)] }
    else { immediate := [], intervals := [], timeouts := [] }
  { immediate := statusPart.immediate ++ todoPart.immediate ++ diffPart.immediate
    intervals := statusPart.intervals ++ todoPart.intervals ++ diffPart.intervals
    timeouts := statusPart.timeouts ++ todoPart.timeouts ++ diffPart.timeouts }

end AgentStatusTracker

/-- C5 counterexample: the claim states that each of the three polling
loops performs its first poll immediately at start time. With the default
configuration and a TODO service present, the diff-stats loop is not among
the synchronously invoked polls: its first poll is a
`setTimeout(pollDiff, 1000)` one-shot ("Delayed initial poll for diff"). -/
theorem startPolling_diff_not_immediate :
    LoopKind.diff ∉
      (AgentStatusTracker.startPollingSchedule true DEFAULT_POLLING_CONFIG).immediate ∧
    (AgentStatusTracker.startPollingSchedule true DEFAULT_POLLING_CONFIG).timeouts
      = [(1000, LoopKind.diff)] := by
  refine ⟨by decide, by decide⟩

/-- C5 (amended): when `startPolling` runs with all three intervals
positive and a TODO service present, the status and task-list loops are
polled synchronously at start time (in that order), the diff-stats loop's
first poll is a one-shot scheduled 1000 ms after start, and the three
interval timers are installed with exactly the configured periods — by
default 1 s (status), 2 s (task list) and 60 s (diff stats). -/
theorem startPolling_schedule_spec (config : PollingConfig)
    (hstatus : 0 < config.statusInterval) (htodo : 0 < config.todoInterval)
    (hdiff : 0 < config.diffInterval) :
    (AgentStatusTracker.startPollingSchedule true config).immediate
      = [LoopKind.status, LoopKind.todo] ∧
    (AgentStatusTracker.startPollingSchedule true config).intervals
      = [(config.statusInterval, LoopKind.status),
         (config.todoInterval, LoopKind.todo),
         (config.diffInterval, LoopKind.diff)] ∧
    (AgentStatusTracker.startPollingSchedule true config).timeouts
      = [(1000, LoopKind.diff)] ∧
    DEFAULT_POLLING_CONFIG
      = { statusInterval := 1000, todoInterval := 2000, diffInterval := 60000 } := by
  refine ⟨?_, ?_, ?_, rfl⟩ <;>
    · unfold AgentStatusTracker.startPollingSchedule
      simp [hstatus, htodo, hdiff]

/-- Witness for the amended C5 at the default configuration. -/
theorem startPolling_schedule_spec_witness :
    0 < DEFAULT_POLLING_CONFIG.statusInterval ∧
    (AgentStatusTracker.startPollingSchedule true DEFAULT_POLLING_CONFIG).immediate
      = [LoopKind.status, LoopKind.todo] := by
  refine ⟨by decide, ?_⟩
  exact (startPolling_schedule_spec DEFAULT_POLLING_CONFIG (by decide) (by decide)
    (by decide)).1

/-! ## AgentStatusTracker lifecycle state (`startPolling` / `stopPolling` /
`isPolling`) -/

/-- The tracker's polling state: the three optional interval timers
(`pollingIntervals.status/todo/diff`, holding their periods) and the
`_isPolling` flag. -/
structure TrackerPollingState where
  statusTimer : Option ℕ
  todoTimer : Option ℕ
  diffTimer : Option ℕ
  isPollingFlag : Bool
  deriving DecidableEq, Repr

namespace AgentStatusTracker

/-- The tracker's initial state: no timers, not polling. -/
def initialPollingState : TrackerPollingState :=
  { statusTimer := none, todoTimer := none, diffTimer := none,
    isPollingFlag := false }

/-- State effect of `startPolling` (lines 252-301): an early return when
already polling; otherwise `_isPolling` is set and each loop's interval
timer is installed when its guard holds. -/
def startPollingState (hasTodoService : Bool) (config : PollingConfig)
    (s : TrackerPollingState) : TrackerPollingState :=
  if s.isPollingFlag then s
  else
    { statusTimer :=
        if 0 < config.statusInterval then some config.statusInterval
        else s.statusTimer
      todoTimer :=
        if 0 < config.todoInterval ∧ hasTodoService then some config.todoInterval
        else s.todoTimer
      diffTimer :=
        if 0 < config.diffInterval then some config.diffInterval else s.diffTimer
      isPollingFlag := true }

/-- State effect of `stopPolling` (lines 306-321): every installed timer is
cleared and `_isPolling` reset, unconditionally. -/
def stopPollingState (_s : TrackerPollingState) : TrackerPollingState :=
  { statusTimer := none, todoTimer := none, diffTimer := none,
    isPollingFlag := false }

/-- `isPolling` (lines 326-328). -/
def isPolling (s : TrackerPollingState) : Bool :=
  s.isPollingFlag

/-- Lifecycle operations on the tracker. -/
inductive TrackerOp where
  | start (hasTodoService : Bool) (config : PollingConfig)
  | stop
  deriving DecidableEq, Repr

/-- Apply one lifecycle operation. -/
def applyOp (s : TrackerPollingState) : TrackerOp → TrackerPollingState
  | TrackerOp.start hasTodoService config => startPollingState hasTodoService config s
  | TrackerOp.stop => stopPollingState s

/-- Run a sequence of lifecycle operations from a state. -/
def runOps (s : TrackerPollingState) (ops : List TrackerOp) : TrackerPollingState :=
  ops.foldl applyOp s

/-- Whether the last lifecycle operation of the trace is a start (false for
the empty trace). -/
def lastOpIsStart : List TrackerOp → Bool
  | [] => false
  | TrackerOp.start _ _ :: [] => true
  | TrackerOp.stop :: [] => false
  | _ :: op :: rest => lastOpIsStart (op :: rest)

theorem isPolling_applyOp (s : TrackerPollingState) (op : TrackerOp) :
    AgentStatusTracker.isPolling (applyOp s op)
      = (match op with
         | TrackerOp.start _ _ => true
         | TrackerOp.stop => false) := by
  cases op with
  | start hasTodoService config =>
    by_cases h : s.isPollingFlag
    · simp [applyOp, startPollingState, h, isPolling]
    · simp [applyOp, startPollingState, h, isPolling]
  | stop => rfl

/-- After any non-empty trace, `isPolling` reports exactly whether the last
lifecycle operation was a start. -/
theorem isPolling_runOps (ops : List TrackerOp) (s : TrackerPollingState)
    (hne : ops ≠ []) :
    AgentStatusTracker.isPolling (runOps s ops) = lastOpIsStart ops := by
  induction ops generalizing s with
  | nil => exact absurd rfl hne
  | cons op rest ih =>
    cases rest with
    | nil =>
      show AgentStatusTracker.isPolling (applyOp s op) = lastOpIsStart [op]
      rw [isPolling_applyOp]
      cases op <;> rfl
    | cons op2 rest2 =>
      show AgentStatusTracker.isPolling (runOps (applyOp s op) (op2 :: rest2))
        = lastOpIsStart (op :: op2 :: rest2)
      rw [ih (applyOp s op) (by simp)]
      cases op <;> rfl

end AgentStatusTracker

/-- C10: calling `startPolling` while polling is already active is a
complete no-op (the state — installed timers and configuration — is
returned unchanged, so `isPolling` stays true), and along any non-empty
trace of lifecycle operations `isPolling` returns true exactly when the
most recent operation was a (necessarily successful) start, i.e. between a
start and the next stop. -/
theorem startPolling_noop_when_active (hasTodoService : Bool)
    (config : PollingConfig) (s : TrackerPollingState)
    (hactive : s.isPollingFlag = true) :
    AgentStatusTracker.startPollingState hasTodoService config s = s ∧
    AgentStatusTracker.isPolling
      (AgentStatusTracker.startPollingState hasTodoService config s) = true ∧
    (∀ (ops : List AgentStatusTracker.TrackerOp) (t : TrackerPollingState),
      ops ≠ [] →
      AgentStatusTracker.isPolling (AgentStatusTracker.runOps t ops)
        = AgentStatusTracker.lastOpIsStart ops) := by
  have hnoop : AgentStatusTracker.startPollingState hasTodoService config s = s := by
    simp [AgentStatusTracker.startPollingState, hactive]
  refine ⟨hnoop, ?_, ?_⟩
  · rw [hnoop]
    exact hactive
  · intro ops t hne
    exact AgentStatusTracker.isPolling_runOps ops t hne

/-- Witness for C10 at a concrete input: start from the initial state, then
start again with a different configuration — a no-op. -/
theorem startPolling_noop_witness :
    (AgentStatusTracker.startPollingState true DEFAULT_POLLING_CONFIG
        AgentStatusTracker.initialPollingState).isPollingFlag = true ∧
    AgentStatusTracker.startPollingState false
        { statusInterval := 5, todoInterval := 6, diffInterval := 7 }
        (AgentStatusTracker.startPollingState true DEFAULT_POLLING_CONFIG
          AgentStatusTracker.initialPollingState)
      = AgentStatusTracker.startPollingState true DEFAULT_POLLING_CONFIG
          AgentStatusTracker.initialPollingState := by
  refine ⟨by decide, ?_⟩
  exact (startPolling_noop_when_active false
    { statusInterval := 5, todoInterval := 6, diffInterval := 7 }
    (AgentStatusTracker.startPollingState true DEFAULT_POLLING_CONFIG
      AgentStatusTracker.initialPollingState) (by decide)).1

/-! ## AgentFactory (id allocation, creation outcomes, isolation fallback) -/

namespace AgentFactory

/-- The loop body of `AgentFactory.getNextAgentId` (AgentFactory.ts lines
298-304): `let id = 1; while (existingIds.has(id)) id++; return id`,
expressed with explicit fuel (the JavaScript loop needs at most
`sup existingIds` increments before finding a free id). -/
def getNextAgentIdAux (existingIds : Finset ℕ) : ℕ → ℕ → ℕ
  | 0, i => i
  | fuel + 1, i =>
    if i ∈ existingIds then getNextAgentIdAux existingIds fuel (i + 1) else i

/-- `AgentFactory.getNextAgentId`: the smallest positive integer not in
`existingIds` (a `Set<number>`, embedded as `Finset ℕ`). -/
def getNextAgentId (existingIds : Finset ℕ) : ℕ :=
  getNextAgentIdAux existingIds (existingIds.sup id + 1) 1

theorem getNextAgentIdAux_spec (existingIds : Finset ℕ) :
    ∀ (fuel start : ℕ), (∃ k, k ≤ fuel ∧ start + k ∉ existingIds) →
      getNextAgentIdAux existingIds fuel start ∉ existingIds ∧
      start ≤ getNextAgentIdAux existingIds fuel start ∧
      ∀ j, start ≤ j → j < getNextAgentIdAux existingIds fuel start →
        j ∈ existingIds := by
  intro fuel
  induction fuel with
  | zero =>
    intro start hex
    obtain ⟨k, hk, hout⟩ := hex
    interval_cases k
    simp only [Nat.add_zero] at hout
    exact ⟨by simpa [getNextAgentIdAux] using hout, le_refl _, by
      intro j h1 h2
      simp only [getNextAgentIdAux] at h2
      omega⟩
  | succ fuel ih =>
    intro start hex
    by_cases hmem : start ∈ existingIds
    · have hstep : getNextAgentIdAux existingIds (fuel + 1) start
          = getNextAgentIdAux existingIds fuel (start + 1) := by
        simp [getNextAgentIdAux, hmem]
      obtain ⟨k, hk, hout⟩ := hex
      have hkpos : k ≠ 0 := by
        intro h0
        rw [h0, Nat.add_zero] at hout
        exact hout hmem
      obtain ⟨h1, h2, h3⟩ := ih (start + 1)
        ⟨k - 1, by omega, by
          have : start + 1 + (k - 1) = start + k := by omega
          rw [this]
          exact hout⟩
      rw [hstep]
      refine ⟨h1, by omega, ?_⟩
      intro j hj1 hj2
      by_cases hjs : j = start
      · rw [hjs]
        exact hmem
      · exact h3 j (by omega) hj2
    · have hstep : getNextAgentIdAux existingIds (fuel + 1) start = start := by
        simp [getNextAgentIdAux, hmem]
      rw [hstep]
      exact ⟨hmem, le_refl _, by intro j h1 h2; omega⟩

/-- The id-allocation part of the `createAgents` loop (AgentFactory.ts
lines 171-192): for each agent created, the next id is allocated and added
to `existingIds` (`existingIds.add(agent.id)`). Only the count of created
agents matters to the ids. -/
def assignIds (existingIds : Finset ℕ) : ℕ → List ℕ
  | 0 => []
  | n + 1 =>
    let i := getNextAgentId existingIds
    i :: assignIds (insert i existingIds) n

end AgentFactory

/-- C6: `getNextAgentId` returns the smallest positive integer absent from
the existing-id set (so ids freed by deletion are reused), and running the
creation loop for 3 agents over an empty repository assigns the unique ids
1, 2, 3. -/
theorem getNextAgentId_smallest_unused (existingIds : Finset ℕ) :
    AgentFactory.getNextAgentId existingIds ∉ existingIds ∧
    1 ≤ AgentFactory.getNextAgentId existingIds ∧
    (∀ m, 1 ≤ m → m < AgentFactory.getNextAgentId existingIds →
      m ∈ existingIds) ∧
    AgentFactory.assignIds (∅ : Finset ℕ) 3 = [1, 2, 3] := by
  have hfree : 1 + existingIds.sup id ∉ existingIds := by
    intro hmem
    have := Finset.le_sup (f := id) hmem
    simp only [id] at this
    omega
  obtain ⟨h1, h2, h3⟩ := AgentFactory.getNextAgentIdAux_spec existingIds
    (existingIds.sup id + 1) 1
    ⟨existingIds.sup id, by omega, hfree⟩
  exact ⟨h1, h2, h3, by decide⟩

/-- Outcome of the isolation-backend creation callback
(`options.onCreateContainer`): it can throw, resolve to `undefined`
(creation failed), or resolve to container info. -/
inductive ContainerCreationResult where
  | throws (message : String)
  | noInfo
  | info (containerInfo : ContainerInfo)
  deriving DecidableEq, Repr

/-- JavaScript truthiness of
`options.containerConfigName && options.containerConfigName !== 'unisolated'`. -/
def configRequestsContainer : Option String → Bool
  | some n => n ≠ "" && n ≠ "unisolated"
  | none => false

namespace AgentFactory

/-- The agent literal built by `createSingleAgent` (AgentFactory.ts lines
228-244). `now` embeds `new Date()`. -/
def mkAgent (agentName : String) (agentId : ℕ) (sessionId : String)
    (now : ℕ) (repoPath worktreePath : String)
    (containerConfigName : Option String) : Agent :=
  { id := agentId
    name := agentName
    sessionId := sessionId
    branch := "claude-" ++ agentName
    worktreePath := worktreePath
    repoPath := repoPath
    taskFile := none
    terminal := false
    status := AgentStatus.idle
    statusIcon := "circle-outline"
    pendingApproval := none
    lastInteractionTime := now
    diffStats := { insertions := 0, deletions := 0, filesChanged := 0 }
    todos := []
    containerConfigName := containerConfigName.getD "unisolated"
    containerInfo := none }

/-- The container-creation phase of `createSingleAgent` (lines 253-270):
run only when a container config other than `unisolated` was requested and
a callback exists; a thrown error or an `undefined` result downgrades the
agent to `unisolated`, a successful result attaches the container info. -/
def containerPhase (containerConfigName : Option String) (hasCallback : Bool)
    (result : ContainerCreationResult) (agent : Agent) : Agent :=
  if configRequestsContainer containerConfigName then
    if hasCallback then
      match result with
      | ContainerCreationResult.info containerInfo =>
        { agent with containerInfo := some containerInfo }
      | ContainerCreationResult.noInfo =>
        { agent with containerConfigName := "unisolated" }
      | ContainerCreationResult.throws _ =>
        { agent with containerConfigName := "unisolated" }
    else agent
  else agent

/-- Per-name outcome of one iteration of the `createAgents` loop:
`createSingleAgent` returns an agent or `null` (worktree already on disk),
and a thrown error is caught by the loop and recorded against the name. -/
inductive CreateOutcome where
  | created (agent : Agent)
  | skipped
  | errored (name : String) (message : String)
  deriving DecidableEq, Repr

/-- `createSingleAgent` (lines 204-279) for one name, with the
collaborators' behaviour passed in: whether the worktree already exists
(skip), whether `createWorktree` throws (becomes a recorded error in
`createAgents`), and the isolation callback's outcome. -/
def createSingleAgent (worktreeAlreadyExists : Bool)
    (createWorktreeError : Option String) (agentName : String) (agentId : ℕ)
    (sessionId : String) (now : ℕ) (repoPath worktreePath : String)
    (containerConfigName : Option String) (hasCallback : Bool)
    (containerResult : ContainerCreationResult) : CreateOutcome :=
  if worktreeAlreadyExists then CreateOutcome.skipped
  else
    match createWorktreeError with
    | some message => CreateOutcome.errored agentName message
    | none =>
      let agent := mkAgent agentName agentId sessionId now repoPath
        worktreePath containerConfigName
      CreateOutcome.created
        (containerPhase containerConfigName hasCallback containerResult agent)

/-- `AgentCreationResult` (AgentFactory.ts lines 26-33). -/
structure AgentCreationResult where
  created : List Agent
  errors : List (String × String)
  skipped : ℕ
  deriving DecidableEq, Repr

/-- The result-accumulation of the `createAgents` loop (lines 171-192). -/
def collectOutcomes (outcomes : List CreateOutcome) : AgentCreationResult :=
  outcomes.foldl
    (fun acc o =>
      match o with
      | CreateOutcome.created agent => { acc with created := acc.created ++ [agent] }
      | CreateOutcome.skipped => { acc with skipped := acc.skipped + 1 }
      | CreateOutcome.errored name message =>
        { acc with errors := acc.errors ++ [(name, message)] })
    { created := [], errors := [], skipped := 0 }

end AgentFactory

/-- C8: when a non-`unisolated` isolation config is requested and the
isolation callback throws or returns no runtime handle, `createSingleAgent`
still yields a created agent, with `containerConfigName` coerced to
`unisolated` and no container info attached; collecting the batch records
it under `created` with zero errors and zero skips. -/
theorem containerFailure_downgrades_not_aborts (agentName : String)
    (agentId : ℕ) (sessionId : String) (now : ℕ)
    (repoPath worktreePath configName : String)
    (containerResult : ContainerCreationResult)
    (hcfg : configName ≠ "" ∧ configName ≠ "unisolated")
    (hfail : (∃ message, containerResult = ContainerCreationResult.throws message) ∨
      containerResult = ContainerCreationResult.noInfo) :
    AgentFactory.createSingleAgent false none agentName agentId sessionId now
        repoPath worktreePath (some configName) true containerResult
      = AgentFactory.CreateOutcome.created
          { AgentFactory.mkAgent agentName agentId sessionId now repoPath
              worktreePath (some configName) with
            containerConfigName := "unisolated" } ∧
    AgentFactory.collectOutcomes
        [AgentFactory.createSingleAgent false none agentName agentId sessionId
          now repoPath worktreePath (some configName) true containerResult]
      = { created :=
            [{ AgentFactory.mkAgent agentName agentId sessionId now repoPath
                worktreePath (some configName) with
              containerConfigName := "unisolated" }]
          errors := []
          skipped := 0 } := by
  have hreq : configRequestsContainer (some configName) = true := by
    simp [configRequestsContainer, hcfg.1, hcfg.2]
  have hphase : AgentFactory.containerPhase (some configName) true containerResult
      (AgentFactory.mkAgent agentName agentId sessionId now repoPath
        worktreePath (some configName))
      = { AgentFactory.mkAgent agentName agentId sessionId now repoPath
            worktreePath (some configName) with
          containerConfigName := "unisolated" } := by
    rcases hfail with ⟨message, hmsg⟩ | hnone
    · rw [hmsg]
      simp [AgentFactory.containerPhase, hreq]
    · rw [hnone]
      simp [AgentFactory.containerPhase, hreq]
  have hsingle : AgentFactory.createSingleAgent false none agentName agentId
      sessionId now repoPath worktreePath (some configName) true containerResult
      = AgentFactory.CreateOutcome.created
          { AgentFactory.mkAgent agentName agentId sessionId now repoPath
              worktreePath (some configName) with
            containerConfigName := "unisolated" } := by
    simp [AgentFactory.createSingleAgent, hphase]
  refine ⟨hsingle, ?_⟩
  rw [hsingle]
  rfl

/-- Witness for C8 at a concrete input: config `docker`, callback throws. -/
theorem containerFailure_downgrades_witness :
    ("docker" ≠ "" ∧ "docker" ≠ "unisolated") ∧
    AgentFactory.createSingleAgent false none "alpha" 1 "session-1" 0
        "/repo" "/repo/.worktrees/claude-alpha" (some "docker") true
        (ContainerCreationResult.throws "docker daemon unavailable")
      = AgentFactory.CreateOutcome.created
          { AgentFactory.mkAgent "alpha" 1 "session-1" 0 "/repo"
              "/repo/.worktrees/claude-alpha" (some "docker") with
            containerConfigName := "unisolated" } := by
  refine ⟨⟨by decide, by decide⟩, ?_⟩
  exact (containerFailure_downgrades_not_aborts "alpha" 1 "session-1" 0 "/repo"
    "/repo/.worktrees/claude-alpha" "docker"
    (ContainerCreationResult.throws "docker daemon unavailable")
    ⟨by decide, by decide⟩ (Or.inl ⟨"docker daemon unavailable", rfl⟩)).1

/-! ## GitService retry and timeout discipline -/

/-- The three timeout tiers of `GIT_TIMEOUTS` (GitService.ts lines 24-31). -/
inductive GitTimeoutTier where
  | fast
  | medium
  | slow
  deriving DecidableEq, Repr

/-- `GIT_TIMEOUTS`: fast 5000 ms, medium 15000 ms, slow 60000 ms. -/
def GIT_TIMEOUTS : GitTimeoutTier → ℕ
  | GitTimeoutTier.fast => 5000
  | GitTimeoutTier.medium => 15000
  | GitTimeoutTier.slow => 60000

/-- `RETRY_CONFIG` shape (GitService.ts lines 36-45). -/
structure RetryConfig where
  retries : ℕ
  minTimeout : ℕ
  maxTimeout : ℕ
  factor : ℕ
  deriving DecidableEq, Repr

/-- `RETRY_CONFIG`: 3 retries, 500 ms minimum, 3000 ms maximum, factor 2. -/
def RETRY_CONFIG : RetryConfig :=
  { retries := 3, minTimeout := 500, maxTimeout := 3000, factor := 2 }

/-- The git operations exposed by `GitService` (GitService.ts). -/
inductive GitOp where
  | getCurrentBranch
  | getBaseBranch
  | getDiffStatsResult
  | getChangedFilesResult
  | createWorktree
  | removeWorktree
  | deleteBranch
  | renameBranch
  | initRepo
  | stageAll
  | commit
  deriving DecidableEq, Repr

namespace GitService

/-- Whether the method's git call is wrapped in `this.withRetry` (the
`pRetry` wrapper of GitService.ts lines 99-115). Read off each method body:
`removeWorktree` (lines 268-276), `deleteBranch` (lines 281-289) and
`initRepo` (lines 304-307) issue their git command directly, with no
retry. -/
def usesWithRetry : GitOp → Bool
  | GitOp.getCurrentBranch => true
  | GitOp.getBaseBranch => false
  | GitOp.getDiffStatsResult => true
  | GitOp.getChangedFilesResult => true
  | GitOp.createWorktree => true
  | GitOp.removeWorktree => false
  | GitOp.deleteBranch => false
  | GitOp.renameBranch => true
  | GitOp.initRepo => false
  | GitOp.stageAll => true
  | GitOp.commit => true

/-- The timeout tier each method passes to `this.git(cwd, timeout)`. -/
def timeoutTier : GitOp → GitTimeoutTier
  | GitOp.getCurrentBranch => GitTimeoutTier.fast
  | GitOp.getBaseBranch => GitTimeoutTier.fast
  | GitOp.getDiffStatsResult => GitTimeoutTier.medium
  | GitOp.getChangedFilesResult => GitTimeoutTier.medium
  | GitOp.createWorktree => GitTimeoutTier.slow
  | GitOp.removeWorktree => GitTimeoutTier.medium
  | GitOp.deleteBranch => GitTimeoutTier.fast
  | GitOp.renameBranch => GitTimeoutTier.fast
  | GitOp.initRepo => GitTimeoutTier.fast
  | GitOp.stageAll => GitTimeoutTier.medium
  | GitOp.commit => GitTimeoutTier.medium

/-- Which operations mutate repository state (or would touch the network):
worktree create/remove, branch delete/rename, init, staging, committing. -/
def isMutatingOrNetworked : GitOp → Bool
  | GitOp.getCurrentBranch => false
  | GitOp.getBaseBranch => false
  | GitOp.getDiffStatsResult => false
  | GitOp.getChangedFilesResult => false
  | GitOp.createWorktree => true
  | GitOp.removeWorktree => true
  | GitOp.deleteBranch => true
  | GitOp.renameBranch => true
  | GitOp.initRepo => true
  | GitOp.stageAll => true
  | GitOp.commit => true

/-- Which methods swallow their failures entirely (catch, log at debug
level, return normally): `removeWorktree` and `deleteBranch`;
`getBaseBranch` also catches, returning the `HEAD~1` fallback. -/
def swallowsFailures : GitOp → Bool
  | GitOp.getBaseBranch => true
  | GitOp.removeWorktree => true
  | GitOp.deleteBranch => true
  | _ => false

end GitService

/-- C9 counterexample: the claim states every mutating git operation —
explicitly including worktree removal and branch deletion — is wrapped with
retries. In the code `removeWorktree` and `deleteBranch` run their git
command exactly once, with no `withRetry` wrapper. -/
theorem removeWorktree_deleteBranch_not_retried :
    GitService.isMutatingOrNetworked GitOp.removeWorktree = true ∧
    GitService.usesWithRetry GitOp.removeWorktree = false ∧
    GitService.isMutatingOrNetworked GitOp.deleteBranch = true ∧
    GitService.usesWithRetry GitOp.deleteBranch = false := by
  refine ⟨rfl, rfl, rfl, rfl⟩

/-- C9 (amended): worktree creation, branch rename, stage-all and commit
(and the diff/branch reads) are wrapped with `pRetry` using 3 retries,
500 ms minimum delay, 3000 ms maximum delay and factor 2, with worktree
creation in the slow (60 s) timeout tier; but worktree removal and branch
deletion are not retried — each runs its git command once (medium and fast
tier respectively) and swallows any failure — and `initRepo` is likewise
unretried. -/
theorem git_retry_and_timeout_discipline :
    RETRY_CONFIG
      = { retries := 3, minTimeout := 500, maxTimeout := 3000, factor := 2 } ∧
    GitService.usesWithRetry GitOp.createWorktree = true ∧
    GitService.timeoutTier GitOp.createWorktree = GitTimeoutTier.slow ∧
    GIT_TIMEOUTS GitTimeoutTier.slow = 60000 ∧
    GitService.usesWithRetry GitOp.renameBranch = true ∧
    GitService.usesWithRetry GitOp.stageAll = true ∧
    GitService.usesWithRetry GitOp.commit = true ∧
    GitService.usesWithRetry GitOp.getDiffStatsResult = true ∧
    GitService.usesWithRetry GitOp.getCurrentBranch = true ∧
    GitService.usesWithRetry GitOp.removeWorktree = false ∧
    GitService.usesWithRetry GitOp.deleteBranch = false ∧
    GitService.usesWithRetry GitOp.initRepo = false ∧
    GitService.swallowsFailures GitOp.removeWorktree = true ∧
    GitService.swallowsFailures GitOp.deleteBranch = true ∧
    GitService.timeoutTier GitOp.removeWorktree = GitTimeoutTier.medium ∧
    GitService.timeoutTier GitOp.deleteBranch = GitTimeoutTier.fast := by
  decide

/-! ## WorktreeManager metadata round trip -/

/-- The durable `PersistedAgent` subset written to the per-worktree
metadata file. -/
structure PersistedAgent where
  id : ℕ
  name : String
  sessionId : String
  branch : String
  worktreePath : String
  repoPath : String
  taskFile : Option String
  deriving DecidableEq, Repr

/-- JavaScript `s.startsWith(pre)` over Lean strings. -/
def strStartsWith (s pre : String) : Bool :=
  listStartsWith s.data pre.data

/-- Modelled from the spec: WorktreeManager.ts is not under src (only its
test suite is), so the per-worktree metadata file
`.opus-orchestra/agent.json` is modelled after §4.1/§6 of the spec and the
WorktreeManager tests — it is either absent, present but unparseable, or a
valid JSON record of the persisted fields. -/
inductive MetadataFile where
  | missing
  | corrupt
  | valid (agent : PersistedAgent)
  deriving DecidableEq, Repr

/-- One child directory of the configured worktree directory, with the
state of its metadata file. -/
structure WorktreeEntry where
  dirName : String
  metadata : MetadataFile
  deriving DecidableEq, Repr

namespace WorktreeManager

/-- Modelled from the spec: `WorktreeManager.loadAgentMetadata` — a missing
or corrupt metadata file yields an explicit `null`, never a thrown fault
(spec §4.1; tests "returns null when metadata file does not exist" /
"... is invalid JSON"). -/
def loadAgentMetadata : MetadataFile → Option PersistedAgent
  | MetadataFile.missing => none
  | MetadataFile.corrupt => none
  | MetadataFile.valid agent => some agent

/-- Modelled from the spec: `WorktreeManager.scanWorktreesForAgents` —
lists worktree-directory children whose name matches the `claude-` naming
convention and returns every one with valid metadata, ignoring
non-matching directories and matching-but-metadata-less ones (spec §4.1;
tests "ignores non-agent directories", "ignores directories without agent
metadata"). -/
def scanWorktreesForAgents (entries : List WorktreeEntry) : List PersistedAgent :=
  (entries.filter (fun e => strStartsWith e.dirName "claude-")).filterMap
    (fun e => loadAgentMetadata e.metadata)

/-- Modelled from the spec: `WorktreeManager.saveAgentMetadata` — fully
rewrites the metadata file of the agent's worktree directory
`claude-<name>` (creating the entry when scanning a directory that did not
list it yet); central storage is not involved. -/
def saveAgentMetadata (agent : PersistedAgent) (entries : List WorktreeEntry) :
    List WorktreeEntry :=
  if entries.any (fun e => e.dirName = "claude-" ++ agent.name) then
    entries.map (fun e =>
      if e.dirName = "claude-" ++ agent.name then
        { e with metadata := MetadataFile.valid agent }
      else e)
  else entries ++ [⟨"claude-" ++ agent.name, MetadataFile.valid agent⟩]

theorem claude_dir_matches (s : String) :
    strStartsWith ("claude-" ++ s) "claude-" = true := by
  have hdata : ("claude-" ++ s).data = "claude-".data ++ s.data :=
    String.data_append "claude-" s
  show listStartsWith ("claude-" ++ s).data "claude-".data = true
  rw [hdata]
  show listStartsWith
    ('c' :: 'l' :: 'a' :: 'u' :: 'd' :: 'e' :: '-' :: s.data)
    ('c' :: 'l' :: 'a' :: 'u' :: 'd' :: 'e' :: '-' :: []) = true
  simp [listStartsWith]

end WorktreeManager

/-- C7: writing an agent's per-worktree metadata and then scanning the
worktree directory recovers exactly that persisted record (all fields
equal), with no reliance on central storage — the scan reads only the
directory entries; conversely every record the scan returns comes from a
directory matching the `claude-` naming convention whose metadata file is
valid, so non-matching directories and matching directories without valid
metadata are excluded. -/
theorem scan_after_save_roundtrip (agent : PersistedAgent)
    (entries : List WorktreeEntry) :
    agent ∈ WorktreeManager.scanWorktreesForAgents
      (WorktreeManager.saveAgentMetadata agent entries) ∧
    (∀ m ∈ WorktreeManager.scanWorktreesForAgents entries,
      ∃ e ∈ entries, strStartsWith e.dirName "claude-" = true ∧
        e.metadata = MetadataFile.valid m) := by
  constructor
  · unfold WorktreeManager.saveAgentMetadata
    by_cases hany : entries.any (fun e => e.dirName = "claude-" ++ agent.name)
    · rw [if_pos hany]
      obtain ⟨e₀, he₀, hdir⟩ := List.any_eq_true.mp hany
      have hdir' : e₀.dirName = "claude-" ++ agent.name := by
        simpa using hdir
      unfold WorktreeManager.scanWorktreesForAgents
      rw [List.mem_filterMap]
      refine ⟨{ e₀ with metadata := MetadataFile.valid agent }, ?_, rfl⟩
      rw [List.mem_filter]
      constructor
      · rw [List.mem_map]
        exact ⟨e₀, he₀, by rw [if_pos hdir']⟩
      · show strStartsWith e₀.dirName "claude-" = true
        rw [hdir']
        exact WorktreeManager.claude_dir_matches agent.name
    · rw [if_neg hany]
      unfold WorktreeManager.scanWorktreesForAgents
      rw [List.mem_filterMap]
      refine ⟨⟨"claude-" ++ agent.name, MetadataFile.valid agent⟩, ?_, rfl⟩
      rw [List.mem_filter]
      exact ⟨List.mem_append_right _ (List.mem_singleton.mpr rfl),
        WorktreeManager.claude_dir_matches agent.name⟩
  · intro m hm
    unfold WorktreeManager.scanWorktreesForAgents at hm
    rw [List.mem_filterMap] at hm
    obtain ⟨e, he, hload⟩ := hm
    rw [List.mem_filter] at he
    refine ⟨e, he.1, he.2, ?_⟩
    cases hmeta : e.metadata with
    | missing => rw [hmeta] at hload; exact absurd hload (by simp [WorktreeManager.loadAgentMetadata])
    | corrupt => rw [hmeta] at hload; exact absurd hload (by simp [WorktreeManager.loadAgentMetadata])
    | valid a =>
      rw [hmeta] at hload
      simp only [WorktreeManager.loadAgentMetadata, Option.some.injEq] at hload
      rw [hload]

/-- Witness for C6 at a concrete input: with ids {1, 2, 5} in use, the
allocator's result satisfies the minimality properties (it is 3). -/
theorem getNextAgentId_smallest_unused_witness :
    AgentFactory.getNextAgentId {1, 2, 5} ∉ ({1, 2, 5} : Finset ℕ) ∧
    1 ≤ AgentFactory.getNextAgentId {1, 2, 5} ∧
    (2 < AgentFactory.getNextAgentId {1, 2, 5} →
      (2 : ℕ) ∈ ({1, 2, 5} : Finset ℕ)) :=
  ⟨(getNextAgentId_smallest_unused {1, 2, 5}).1,
   (getNextAgentId_smallest_unused {1, 2, 5}).2.1,
   fun h => (getNextAgentId_smallest_unused {1, 2, 5}).2.2.1 2 (by decide) h⟩

/-- A persisted record and a worktree directory listing used to witness the
metadata round trip at a concrete input. -/
def demoPersisted : PersistedAgent :=
  { id := 1
    name := "alpha"
    sessionId := "session-1"
    branch := "claude-alpha"
    worktreePath := "/repo/.worktrees/claude-alpha"
    repoPath := "/repo"
    taskFile := none }

/-- A directory listing containing one non-matching directory and one
matching directory with no metadata. -/
def demoEntries : List WorktreeEntry :=
  [⟨"random-dir", MetadataFile.valid demoPersisted⟩,
   ⟨"claude-bravo", MetadataFile.missing⟩]

/-- Witness for C7 at a concrete input: saving the demo record into the
demo directory listing and scanning recovers it. -/
theorem scan_after_save_roundtrip_witness :
    demoPersisted ∈ WorktreeManager.scanWorktreesForAgents
      (WorktreeManager.saveAgentMetadata demoPersisted demoEntries) :=
  (scan_after_save_roundtrip demoPersisted demoEntries).1
